import Mathlib

/-!
Verification of the httpx toolkit (fluent HTTP request builder, composable
transport middleware, retry transport, status-envelope codec).

The Go sources are shallowly embedded: pure functions become Lean functions,
the retry loop becomes a fuel-indexed recursion over a deterministic stub of
the wrapped transport (the stub is indexed by the attempt number, which
determinizes the stateful Go test double), and the builder's map-valued
fields live in an explicit store so that Go's reference semantics for maps
is visible.  Machine integers that never overflow in the modelled paths are
embedded as Nat/Int.
-/

namespace Httpx

/-! ## Multi-valued string maps

`url.Values` and `http.Header` are both `map[string][]string`.  They are
embedded as association lists; `mmAdd` mirrors `Values.Add`/`Header.Add`
(append a value to the key's list, creating the entry if absent) and `mmSet`
mirrors `Header.Set` (replace the key's list with the singleton).  Go map
iteration order over distinct keys is unspecified; the association list
fixes one order, which is irrelevant to the per-key claims proved below.
Header-key canonicalisation is orthogonal and keys are taken as already
canonical. -/

def MultiMap := List (String × List String)

instance : DecidableEq MultiMap := by
  unfold MultiMap
  infer_instance

def mmAdd (k v : String) : MultiMap → MultiMap
  | [] => [(k, [v])]
  | (k', vs) :: rest =>
    if k' = k then (k', vs ++ [v]) :: rest else (k', vs) :: mmAdd k v rest

def mmSet (k v : String) : MultiMap → MultiMap
  | [] => [(k, [v])]
  | (k', vs) :: rest =>
    if k' = k then (k', [v]) :: rest else (k', vs) :: mmSet k v rest

/-- The list of values held for key `k` (first matching entry), mirroring a
Go map lookup `m[k]`. -/
def mmValues (k : String) : MultiMap → List String
  | [] => []
  | (k', vs) :: rest => if k' = k then vs else mmValues k rest

/-- Embeds `Header.Get`/`Values.Get`: first value for the key, `""` if absent. -/
def mmGet (k : String) (m : MultiMap) : String :=
  (mmValues k m).headD ""

/-- The `(key, value)` pairs of a multimap in the order Go's nested
`for key, values := range m { for _, value := range values { ... } }`
loops visit them (for the fixed entry order of the model). -/
def mmPairs (m : MultiMap) : List (String × String) :=
  (m.map (fun p => p.2.map (fun v => (p.1, v)))).flatten

/-- Run `Add` for every pair of `pairs` into `m`, in order. -/
def addPairs (m : MultiMap) (pairs : List (String × String)) : MultiMap :=
  pairs.foldl (fun acc p => mmAdd p.1 p.2 acc) m

/-- Run `Set` for every pair of `pairs` into `m`, in order. -/
def setPairs (m : MultiMap) (pairs : List (String × String)) : MultiMap :=
  pairs.foldl (fun acc p => mmSet p.1 p.2 acc) m

/-- All values for key `k` contributed by `pairs`, in order. -/
def collectPairs (k : String) (pairs : List (String × String)) : List String :=
  (pairs.filter (fun p => p.1 == k)).map Prod.snd

theorem mmValues_mmAdd (k k' v : String) (m : MultiMap) :
    mmValues k (mmAdd k' v m) =
      if k' = k then mmValues k m ++ [v] else mmValues k m := by
  induction m with
  | nil =>
    by_cases h : k' = k <;> simp [mmAdd, mmValues, h]
  | cons p rest ih =>
    obtain ⟨k'', vs⟩ := p
    by_cases h1 : k'' = k'
    · subst h1
      by_cases h2 : k'' = k <;> simp [mmAdd, mmValues, h2]
    · by_cases h2 : k'' = k
      · subst h2
        have h3 : ¬k' = k'' := fun h => h1 h.symm
        simp [mmAdd, mmValues, h1, h3]
      · simp [mmAdd, mmValues, h1, h2, ih]

theorem mmValues_mmSet (k k' v : String) (m : MultiMap) :
    mmValues k (mmSet k' v m) =
      if k' = k then [v] else mmValues k m := by
  induction m with
  | nil =>
    by_cases h : k' = k <;> simp [mmSet, mmValues, h]
  | cons p rest ih =>
    obtain ⟨k'', vs⟩ := p
    by_cases h1 : k'' = k'
    · subst h1
      by_cases h2 : k'' = k <;> simp [mmSet, mmValues, h2]
    · by_cases h2 : k'' = k
      · subst h2
        have h3 : ¬k' = k'' := fun h => h1 h.symm
        simp [mmSet, mmValues, h1, h3]
      · simp [mmSet, mmValues, h1, h2, ih]

theorem mmValues_addPairs (k : String) (pairs : List (String × String))
    (m : MultiMap) :
    mmValues k (addPairs m pairs) = mmValues k m ++ collectPairs k pairs := by
  induction pairs generalizing m with
  | nil => simp [addPairs, collectPairs]
  | cons p rest ih =>
    obtain ⟨k', v⟩ := p
    by_cases h : k' = k
    · subst h
      show mmValues k' (addPairs (mmAdd k' v m) rest) = _
      rw [ih, mmValues_mmAdd]
      simp [collectPairs]
    · show mmValues k (addPairs (mmAdd k' v m) rest) = _
      rw [ih, mmValues_mmAdd]
      simp [collectPairs, h]

/-! ## Retry transport (`transport.go`, `retriableTransport.RoundTrip`)

The wrapped transport is embedded as a deterministic stub
`inner : Nat → String → RTResult` giving, for each attempt index, the
result of `rt.rt.RoundTrip` on a request whose body holds the given bytes
(this determinizes the stateful Go stub of the spec's test scenario).
Each loop iteration is recorded as an `AttemptRec` carrying the body bytes
the wrapped transport observed on that attempt and the sleep (in
milliseconds) that preceded the attempt, so that the claims about body
replay and about the fixed 100ms delay are stated over the visible trace.

`errors.WithStack` maps `nil` to `nil` and otherwise preserves the error,
so it is the identity on the embedded `Option String` error. -/

/-- An HTTP response, reduced to the fields the retry loop inspects. -/
structure Response where
  statusCode : Nat
  body : String
deriving DecidableEq

/-- Result of one `RoundTrip` call of the wrapped transport: per the
`http.RoundTripper` contract it returns either a response (with nil error)
or an error (with nil response). -/
inductive RTResult where
  | ok (resp : Response)
  | err (msg : String)
deriving DecidableEq

/-- One attempt as the wrapped transport observes it: the milliseconds the
retry loop slept immediately before delegating, and the request-body bytes
delegated (the request body is replaced by a fresh stream over `saved`
before every attempt). -/
structure AttemptRec where
  delayBefore : Nat
  body : String
deriving DecidableEq

/-- Result of `retriableTransport.RoundTrip` plus the trace of attempts. -/
structure RTOutcome where
  resp : Option Response
  err : Option String
  attempts : List AttemptRec
deriving DecidableEq

/-- An outgoing request, reduced to the body the retry transport handles
(`none` embeds `req.Body == nil`). -/
structure Request where
  body : Option String
deriving DecidableEq

/-- Did this attempt's result end the retry loop with an early return?
Only `err == nil && resp.StatusCode < 500` does (`transport.go:314-319`). -/
def stopsLoop : RTResult → Bool
  | .ok r => r.statusCode < 500
  | .err _ => false

/-- Did this attempt's result trigger the 100ms sleep (a completed
response with status `>= http.StatusInternalServerError`)? -/
def is5xx : RTResult → Bool
  | .ok r => 500 ≤ r.statusCode
  | .err _ => false

/-- The `for i := 0; i < rt.maxRetry; i++` loop of
`retriableTransport.RoundTrip` (`transport.go:311-325`), including the
post-loop returns.  `fuel` is the number of iterations left, `i` the
current attempt index, `delay` the sleep the previous iteration scheduled
(100 after a 5xx response, else 0), and `lastResp`/`lastErr` the current
values of the Go variables `resp`/`err`. -/
def retryGo (inner : Nat → String → RTResult) (saved : String) :
    Nat → Nat → Nat → Option Response → Option String → RTOutcome
  | 0, _, _, lastResp, lastErr =>
    match lastResp with
    | some r => ⟨some r, none, []⟩
    | none => ⟨none, lastErr, []⟩
  | fuel + 1, i, delay, _, _ =>
    match inner i saved with
    | .ok r =>
      if 500 ≤ r.statusCode then
        let rest := retryGo inner saved fuel (i + 1) 100 (some r) none
        ⟨rest.resp, rest.err, ⟨delay, saved⟩ :: rest.attempts⟩
      else
        ⟨some r, none, [⟨delay, saved⟩]⟩
    | .err e =>
      let rest := retryGo inner saved fuel (i + 1) 0 none (some e)
      ⟨rest.resp, rest.err, ⟨delay, saved⟩ :: rest.attempts⟩

/-- The body bytes saved up front (`transport.go:302-309`): read once into
memory iff `rt.maxRetry > 0 && req.Body != nil`, else the nil slice. -/
def savedBody (maxRetry : Int) (req : Request) : String :=
  if 0 < maxRetry ∧ req.body.isSome then req.body.getD "" else ""

/-- Embeds `retriableTransport.RoundTrip` (`transport.go:301-326`). -/
def retriableRoundTrip (maxRetry : Int) (inner : Nat → String → RTResult)
    (req : Request) : RTOutcome :=
  retryGo inner (savedBody maxRetry req) maxRetry.toNat 0 0 none none

/-- Number of iterations the retry loop performs: it runs until the first
attempt whose result is a completed response with status < 500, capped at
`fuel` total attempts.  Transport-level errors and 5xx responses both let
the loop continue. -/
def loopLen (inner : Nat → String → RTResult) (saved : String) :
    Nat → Nat → Nat
  | 0, _ => 0
  | fuel + 1, i =>
    if stopsLoop (inner i saved) then 1 else loopLen inner saved fuel (i + 1) + 1

theorem loopLen_le (inner : Nat → String → RTResult) (saved : String) :
    ∀ fuel i, loopLen inner saved fuel i ≤ fuel := by
  intro fuel
  induction fuel with
  | zero => intro i; simp [loopLen]
  | succ n ih =>
    intro i
    by_cases h : stopsLoop (inner i saved) = true <;>
      simp [loopLen, h, Nat.succ_le_succ (ih (i + 1))]

/-- Trace shape of the retry loop: attempt `k` (relative to the starting
index `i`) carries the shared `saved` body and is preceded by a 100ms
sleep exactly when the previous attempt completed with a 5xx status. -/
theorem retryGo_attempts (inner : Nat → String → RTResult) (saved : String) :
    ∀ fuel i delay lastResp lastErr,
      (retryGo inner saved fuel i delay lastResp lastErr).attempts =
        (List.range (loopLen inner saved fuel i)).map
          (fun k =>
            ⟨if k = 0 then delay
             else if is5xx (inner (i + k - 1) saved) = true then 100 else 0,
             saved⟩) := by
  intro fuel
  induction fuel with
  | zero =>
    intro i delay lastResp lastErr
    cases lastResp <;> simp [retryGo, loopLen]
  | succ n ih =>
    intro i delay lastResp lastErr
    match h : inner i saved with
    | .ok r =>
      by_cases hge : 500 ≤ r.statusCode
      · have hstop : stopsLoop (inner i saved) = false := by
          simp [stopsLoop, h, Nat.not_lt.mpr hge]
        rw [show retryGo inner saved (n + 1) i delay lastResp lastErr =
              ⟨(retryGo inner saved n (i + 1) 100 (some r) none).resp,
               (retryGo inner saved n (i + 1) 100 (some r) none).err,
               ⟨delay, saved⟩ ::
                 (retryGo inner saved n (i + 1) 100 (some r) none).attempts⟩ by
              simp [retryGo, h, hge]]
        rw [show loopLen inner saved (n + 1) i = loopLen inner saved n (i + 1) + 1 by
              simp [loopLen, hstop]]
        rw [List.range_succ_eq_map, List.map_cons, List.map_map]
        simp only [ih]
        refine congrArg₂ List.cons (by simp) (List.map_congr_left ?_)
        intro a ha
        rcases a with _ | m
        · simp [Function.comp, h, is5xx, hge]
        · have hm : i + 1 + (m + 1) - 1 = i + (m + 1 + 1) - 1 := by omega
          simp [Function.comp, hm]
      · have hstop : stopsLoop (inner i saved) = true := by
          simp [stopsLoop, h, Nat.lt_of_not_le hge]
        rw [show retryGo inner saved (n + 1) i delay lastResp lastErr =
              ⟨some r, none, [⟨delay, saved⟩]⟩ by simp [retryGo, h, hge]]
        rw [show loopLen inner saved (n + 1) i = 1 by simp [loopLen, hstop]]
        simp [List.range_succ]
    | .err e =>
      have hstop : stopsLoop (inner i saved) = false := by simp [stopsLoop, h]
      rw [show retryGo inner saved (n + 1) i delay lastResp lastErr =
            ⟨(retryGo inner saved n (i + 1) 0 none (some e)).resp,
             (retryGo inner saved n (i + 1) 0 none (some e)).err,
             ⟨delay, saved⟩ ::
               (retryGo inner saved n (i + 1) 0 none (some e)).attempts⟩ by
            simp [retryGo, h]]
      rw [show loopLen inner saved (n + 1) i = loopLen inner saved n (i + 1) + 1 by
            simp [loopLen, hstop]]
      rw [List.range_succ_eq_map, List.map_cons, List.map_map]
      simp only [ih]
      refine congrArg₂ List.cons (by simp) (List.map_congr_left ?_)
      intro a ha
      rcases a with _ | m
      · simp [Function.comp, h, is5xx]
      · have hm : i + 1 + (m + 1) - 1 = i + (m + 1 + 1) - 1 := by omega
        simp [Function.comp, hm]

/-- Length of the attempt trace. -/
theorem retryGo_attempts_length (inner : Nat → String → RTResult)
    (saved : String) (fuel i delay : Nat) (lastResp : Option Response)
    (lastErr : Option String) :
    (retryGo inner saved fuel i delay lastResp lastErr).attempts.length =
      loopLen inner saved fuel i := by
  rw [retryGo_attempts]
  simp

/-- When the loop runs out of fuel without an early return, the outcome is
decided by the last attempt's result alone. -/
theorem retryGo_exhaust (inner : Nat → String → RTResult) (saved : String) :
    ∀ fuel i delay lastResp lastErr, 0 < fuel →
      (retryGo inner saved fuel i delay lastResp lastErr).attempts.length = fuel →
      (∀ r, inner (i + fuel - 1) saved = .ok r →
        (retryGo inner saved fuel i delay lastResp lastErr).resp = some r ∧
        (retryGo inner saved fuel i delay lastResp lastErr).err = none) ∧
      (∀ e, inner (i + fuel - 1) saved = .err e →
        (retryGo inner saved fuel i delay lastResp lastErr).resp = none ∧
        (retryGo inner saved fuel i delay lastResp lastErr).err = some e) := by
  intro fuel
  induction fuel with
  | zero => intro i delay lastResp lastErr h; omega
  | succ n ih =>
    intro i delay lastResp lastErr _ hlen
    match h : inner i saved with
    | .ok r =>
      by_cases hge : 500 ≤ r.statusCode
      · rcases Nat.eq_zero_or_pos n with hn | hn
        · subst hn
          refine ⟨fun r' hr' => ?_, fun e he => ?_⟩
          · rw [show i + 1 - 1 = i by omega] at hr'
            rw [h] at hr'
            cases hr'
            simp [retryGo, h, hge]
          · rw [show i + 1 - 1 = i by omega] at he
            rw [h] at he
            simp at he
        · have hlen' :
              (retryGo inner saved n (i + 1) 100 (some r) none).attempts.length = n := by
            have := hlen
            simp [retryGo, h, hge] at this
            exact this
          have hrec := ih (i + 1) 100 (some r) none hn hlen'
          have hidx : i + 1 + n - 1 = i + (n + 1) - 1 := by omega
          refine ⟨fun r' hr' => ?_, fun e he => ?_⟩
          · have := (hrec.1 r' (by rw [hidx]; exact hr'))
            simpa [retryGo, h, hge] using this
          · have := (hrec.2 e (by rw [hidx]; exact he))
            simpa [retryGo, h, hge] using this
      · have hlen1 :
            (retryGo inner saved (n + 1) i delay lastResp lastErr).attempts.length = 1 := by
          simp [retryGo, h, hge]
        have hn0 : n = 0 := by omega
        subst hn0
        refine ⟨fun r' hr' => ?_, fun e he => ?_⟩
        · rw [show i + 1 - 1 = i by omega] at hr'
          rw [h] at hr'
          cases hr'
          simp [retryGo, h, hge]
        · rw [show i + 1 - 1 = i by omega] at he
          rw [h] at he
          simp at he
    | .err e0 =>
      rcases Nat.eq_zero_or_pos n with hn | hn
      · subst hn
        refine ⟨fun r' hr' => ?_, fun e he => ?_⟩
        · rw [show i + 1 - 1 = i by omega] at hr'
          rw [h] at hr'
          simp at hr'
        · rw [show i + 1 - 1 = i by omega] at he
          rw [h] at he
          cases he
          simp [retryGo, h]
      · have hlen' :
            (retryGo inner saved n (i + 1) 0 none (some e0)).attempts.length = n := by
          have := hlen
          simp [retryGo, h] at this
          exact this
        have hrec := ih (i + 1) 0 none (some e0) hn hlen'
        have hidx : i + 1 + n - 1 = i + (n + 1) - 1 := by omega
        refine ⟨fun r' hr' => ?_, fun e he => ?_⟩
        · have := (hrec.1 r' (by rw [hidx]; exact hr'))
          simpa [retryGo, h] using this
        · have := (hrec.2 e (by rw [hidx]; exact he))
          simpa [retryGo, h] using this

/-! ### Stub transports for the concrete retry scenarios -/

/-- A wrapped transport that fails with a network error on the first
attempt and completes with a 200 response on every later attempt. -/
def stubErrThenOk : Nat → String → RTResult
  | 0, _ => .err "connection refused"
  | _ + 1, _ => .ok ⟨200, "okbody"⟩

/-- A wrapped transport that always completes with status 503. -/
def stubAll503 : Nat → String → RTResult :=
  fun _ _ => .ok ⟨503, "unavailable"⟩

/-- The spec's retry-idempotence stub: 503 on the first two attempts, 200
afterwards. -/
def stub503x2Then200 : Nat → String → RTResult
  | 0, _ => .ok ⟨503, "e1"⟩
  | 1, _ => .ok ⟨503, "e2"⟩
  | _ + 2, _ => .ok ⟨200, "good"⟩

/-- C1 counterexample: with `maxRetry = 2` and a wrapped transport whose
first attempt fails with a transport-level error and whose second attempt
returns a 200 response, `retriableTransport.RoundTrip` does NOT propagate
the error and does make a further attempt: it performs two attempts and
returns the 200 response with a nil error.  This refutes the claim that a
network error from an attempt is propagated immediately without any
further attempt. -/
theorem retry_error_retried_counterexample :
    (retriableRoundTrip 2 stubErrThenOk ⟨some "payload"⟩).err = none ∧
    (retriableRoundTrip 2 stubErrThenOk ⟨some "payload"⟩).resp =
      some ⟨200, "okbody"⟩ ∧
    (retriableRoundTrip 2 stubErrThenOk ⟨some "payload"⟩).attempts.length = 2 := by
  decide

/-- C1 (amended): a transport-level error from an attempt is not
propagated immediately — the loop proceeds directly to the next attempt
with no delay; only a completed response with status >= 500 schedules the
fixed 100ms delay before the following attempt; the loop runs until the
first completed response with status < 500, past errors and 5xx responses
alike, for at most `maxRetry` attempts in total; every attempt delegates
the same saved body bytes. -/
theorem retry_schedule (inner : Nat → String → RTResult) (maxRetry : Int)
    (req : Request) :
    (retriableRoundTrip maxRetry inner req).attempts.length ≤ maxRetry.toNat ∧
    (retriableRoundTrip maxRetry inner req).attempts.length =
      loopLen inner (savedBody maxRetry req) maxRetry.toNat 0 ∧
    (retriableRoundTrip maxRetry inner req).attempts =
      (List.range (retriableRoundTrip maxRetry inner req).attempts.length).map
        (fun k =>
          ⟨if k = 0 then 0
           else if is5xx (inner (k - 1) (savedBody maxRetry req)) = true then 100
           else 0,
           savedBody maxRetry req⟩) := by
  refine ⟨?_, ?_, ?_⟩
  · rw [retriableRoundTrip, retryGo_attempts_length]
    exact loopLen_le _ _ _ _
  · rw [retriableRoundTrip, retryGo_attempts_length]
  · rw [retriableRoundTrip, retryGo_attempts_length, retryGo_attempts]
    apply List.map_congr_left
    intro a _
    rcases a with _ | m
    · simp
    · simp

/-- C6: when the retry transport exhausts all `maxRetry > 0` attempts, the
outcome is decided by the last attempt alone: a completed response (even a
5xx) is returned with a nil error, and a transport-level error is returned
(with a nil response) only when the last attempt produced no response. -/
theorem retry_exhaustion (inner : Nat → String → RTResult) (maxRetry : Int)
    (req : Request) (hpos : 0 < maxRetry)
    (hall : (retriableRoundTrip maxRetry inner req).attempts.length = maxRetry.toNat) :
    (∀ r, inner (maxRetry.toNat - 1) (savedBody maxRetry req) = .ok r →
      (retriableRoundTrip maxRetry inner req).resp = some r ∧
      (retriableRoundTrip maxRetry inner req).err = none) ∧
    (∀ e, inner (maxRetry.toNat - 1) (savedBody maxRetry req) = .err e →
      (retriableRoundTrip maxRetry inner req).resp = none ∧
      (retriableRoundTrip maxRetry inner req).err = some e) := by
  have hfuel : 0 < maxRetry.toNat := by omega
  have := retryGo_exhaust inner (savedBody maxRetry req) maxRetry.toNat 0 0
    none none hfuel hall
  simpa [retriableRoundTrip] using this

/-- C6 witness: with `maxRetry = 2` and a wrapped transport answering 503
on every attempt, both attempts run and the final 503 response is returned
as success (nil error). -/
theorem retry_exhaustion_witness :
    (retriableRoundTrip 2 stubAll503 ⟨some "p"⟩).resp =
      some ⟨503, "unavailable"⟩ ∧
    (retriableRoundTrip 2 stubAll503 ⟨some "p"⟩).err = none :=
  (retry_exhaustion stubAll503 2 ⟨some "p"⟩ (by decide) (by decide)).1
    ⟨503, "unavailable"⟩ rfl

/-- C7: when `maxRetry > 0` and the request carries a body, the body bytes
are captured once up front and every attempt delegates exactly those
bytes, so the wrapped transport observes identical body bytes on every
attempt. -/
theorem retry_body_replay (inner : Nat → String → RTResult) (maxRetry : Int)
    (req : Request) (bs : String) (hb : req.body = some bs)
    (hpos : 0 < maxRetry) :
    (retriableRoundTrip maxRetry inner req).attempts.all
      (fun a => a.body == bs) = true := by
  have hsaved : savedBody maxRetry req = bs := by
    simp [savedBody, hb, hpos]
  rw [retriableRoundTrip, hsaved, retryGo_attempts]
  simp

/-- C7 witness: the spec's scenario — stub answering 503, 503, then 200,
`maxRetry = 3`, body `"payload"` — makes exactly three attempts, each
delegating the identical bytes `"payload"`, and returns the 200 response. -/
theorem retry_body_replay_witness :
    (retriableRoundTrip 3 stub503x2Then200 ⟨some "payload"⟩).attempts.all
      (fun a => a.body == "payload") = true ∧
    (retriableRoundTrip 3 stub503x2Then200 ⟨some "payload"⟩).resp =
      some ⟨200, "good"⟩ ∧
    (retriableRoundTrip 3 stub503x2Then200 ⟨some "payload"⟩).attempts.length = 3 :=
  ⟨retry_body_replay stub503x2Then200 3 ⟨some "payload"⟩ "payload" rfl
      (by decide),
    by decide, by decide⟩

/-- C10: a retry transport built with `maxRetry <= 0` performs no attempt
at all and returns a nil response together with a nil error
(`errors.WithStack(nil)` is `nil`). -/
theorem retry_nonpositive_noop (inner : Nat → String → RTResult)
    (req : Request) (maxRetry : Int) (h : maxRetry ≤ 0) :
    retriableRoundTrip maxRetry inner req = ⟨none, none, []⟩ := by
  have hz : maxRetry.toNat = 0 := Int.toNat_eq_zero.mpr h
  rw [retriableRoundTrip, hz]
  simp [retryGo]

/-- C10 witness: concrete run with `maxRetry = -2`. -/
theorem retry_nonpositive_noop_witness :
    retriableRoundTrip (-2) stubErrThenOk ⟨some "payload"⟩ = ⟨none, none, []⟩ :=
  retry_nonpositive_noop stubErrThenOk ⟨some "payload"⟩ (-2) (by decide)

/-! ## Transport middleware stack (`part_000`, `httpx.go BuildTransport`)

A `RoundTripper` is embedded as a function from the modelled request to a
result plus the list of events its execution emitted, so that the ordering
claims are stated over an observable trace.  Each wrapper emits an `enter`
event when its request path runs; the status wrapper emits a `statusCheck`
event when it inspects the response; the logging wrapper emits
`reqBodyRead`/`respBodyRead` events when it drains (and replaces) a body.
Body drain-and-replace is pure in the model (`DrainBody` returns the same
bytes plus a fresh stream), so bodies pass through unchanged.  The
`otelhttp` tracing collaborator is opaque per the spec and is embedded as
a pass-through that opens a span (its `enter` event). -/

/-- A request as the middleware stack observes it: headers, the remaining
context-deadline budget in nanoseconds (`none` embeds a context without a
deadline), and an optional body. -/
structure MReq where
  header : MultiMap
  ctxTimeout : Option Int
  mbody : Option String
deriving DecidableEq

/-- A completed response as the middleware observes it. -/
structure MRes where
  statusCode : Nat
  respBody : String
deriving DecidableEq

/-- Observable execution events of a middleware stack. -/
inductive Ev where
  | enter (name : String)
  | reqBodyRead (data : String)
  | respBodyRead (data : String)
  | statusCheck (code : Nat)
deriving DecidableEq

/-- Embeds `http.RoundTripper`, with the event trace of the call made explicit. -/
def MTransport := MReq → Except String MRes × List Ev

/-- Embeds `TransportWrapper = func(http.RoundTripper) http.RoundTripper`. -/
def MWrapper := MTransport → MTransport

def ContentTypeKey : String := "Content-Type"

def ContentTypeJson : String := "application/json"

/-- The constant `defaultTransprtTimeout = time.Second * 10` (nanoseconds). -/
def defaultTransprtTimeout : Int := 10000000000

/-- Embeds `TimeoutTransport` (`part_000:29-42`): derives a bounded-deadline
child context (the child budget is capped by the parent deadline), with
the default bound when the configured value is non-positive. -/
def TimeoutTransport (timeout : Int) : MWrapper := fun next req =>
  let t := if timeout ≤ 0 then defaultTransprtTimeout else timeout
  let out := next
    { req with
      ctxTimeout := some (match req.ctxTimeout with
        | none => t
        | some d => min d t) }
  (out.1, .enter "timeout" :: out.2)

/-- Embeds `JsonTransport` (`part_000:60-67`): adds `Content-Type:
application/json` only if absent. -/
def JsonTransport : MWrapper := fun next req =>
  let req' :=
    if mmGet ContentTypeKey req.header = "" then
      { req with header := mmAdd ContentTypeKey ContentTypeJson req.header }
    else req
  let out := next req'
  (out.1, .enter "json" :: out.2)

/-- Embeds `LoggingTransport` (`part_000:84-128`): for non-upgrade requests,
drains and replaces the request body before delegating (when enabled) and
the response body after delegating (when enabled); an error from the next
stage is propagated without a response read. -/
def LoggingTransport (loggingReqBody loggingRespBody : Bool) : MWrapper :=
  fun next req =>
  let isUpgrade := mmGet "Connection" req.header = "Upgrade"
  let preEvs :=
    if ¬isUpgrade ∧ loggingReqBody = true ∧ req.mbody.isSome then
      [Ev.reqBodyRead (req.mbody.getD "")]
    else []
  let out := next req
  match out.1 with
  | .error e => (.error e, .enter "logging" :: preEvs ++ out.2)
  | .ok r =>
    let postEvs :=
      if ¬isUpgrade ∧ loggingRespBody = true then [Ev.respBodyRead r.respBody]
      else []
    (.ok r, .enter "logging" :: preEvs ++ out.2 ++ postEvs)

/-- Embeds `TracingTransport` (`part_000:131-141`): wraps the next stage in the
opaque `otelhttp` span-per-call instrumentation and delegates. -/
def TracingTransport : MWrapper := fun next req =>
  let out := next req
  (out.1, .enter "tracing" :: out.2)

/-- Embeds `StatusCodesTransport` (`part_000:159-178`): after delegating,
accepts the response iff its status is in the expected set, else returns
a descriptive error and discards the response; an error from the next
stage propagates unchecked. -/
def StatusCodesTransport (expectedStatusCodes : List Nat) : MWrapper :=
  fun next req =>
  let out := next req
  match out.1 with
  | .error e => (.error e, out.2)
  | .ok r =>
    if expectedStatusCodes.contains r.statusCode then
      (.ok r, out.2 ++ [Ev.statusCheck r.statusCode])
    else
      (.error ("expected statuscodes, got " ++ toString r.statusCode),
        out.2 ++ [Ev.statusCheck r.statusCode])

/-- Embeds `WrapTransport` (`part_000:200-212`): folds the wrappers over the
base in list order (so the last wrapper is applied last, outermost), then
adds the closing closure that forwards the response or the error. -/
def WrapTransport (next : MTransport) (wrappers : List MWrapper) : MTransport :=
  let folded := wrappers.foldl (fun acc w => w acc) next
  fun req =>
    let out := folded req
    (match out.1 with
     | .ok r => .ok r
     | .error e => .error e,
     out.2)

instance {α β : Type _} [DecidableEq α] [DecidableEq β] :
    DecidableEq (Except α β) := fun a b =>
  match a, b with
  | .ok x, .ok y =>
    if h : x = y then isTrue (by rw [h]) else isFalse (by simp [h])
  | .error x, .error y =>
    if h : x = y then isTrue (by rw [h]) else isFalse (by simp [h])
  | .ok _, .error _ => isFalse (by simp)
  | .error _, .ok _ => isFalse (by simp)

theorem wrapTransport_eq_foldl (next : MTransport) (wrappers : List MWrapper)
    (req : MReq) :
    WrapTransport next wrappers req =
      (wrappers.foldl (fun acc w => w acc) next) req := by
  unfold WrapTransport
  rcases h : (wrappers.foldl (fun acc w => w acc) next) req with ⟨res, evs⟩
  simp only [h]
  cases res <;> rfl

/-! ### Stub wrappers and transports for the composition counterexample -/

/-- A wrapper that tags the request with a header recording its name
before delegating. -/
def tagWrapper (tag : String) : MWrapper := fun next req =>
  next { req with header := mmAdd "Tag" tag req.header }

/-- A base transport replying 200 with a body listing the `Tag` header
values it received, in order. -/
def tagBase : MTransport := fun req =>
  (.ok ⟨200, String.intercalate "," (mmValues "Tag" req.header)⟩, [])

/-- A trivial request. -/
def emptyReq : MReq := ⟨[], none, none⟩

/-- C2 counterexample: for the wrapper sequence `[A, B, C]` (three header
tagging wrappers), the composed transport built by `WrapTransport` is NOT
`A(B(C(base)))`: the base observes the tags in order `C,B,A` (the last
wrapper in the sequence is outermost and runs first), whereas
`A(B(C(base)))` would make it observe `A,B,C`.  This refutes the claimed
execution order at a concrete request. -/
theorem wrapTransport_order_counterexample :
    WrapTransport tagBase [tagWrapper "A", tagWrapper "B", tagWrapper "C"]
        emptyReq ≠
      tagWrapper "A" (tagWrapper "B" (tagWrapper "C" tagBase)) emptyReq ∧
    (WrapTransport tagBase [tagWrapper "A", tagWrapper "B", tagWrapper "C"]
        emptyReq).1 = .ok ⟨200, "C,B,A"⟩ ∧
    (tagWrapper "A" (tagWrapper "B" (tagWrapper "C" tagBase)) emptyReq).1 =
      .ok ⟨200, "A,B,C"⟩ := by
  refine ⟨?_, by decide, by decide⟩
  decide

/-- C2 (amended): applying the wrapper sequence `[A, B, C]` to a base
produces the execution order C-wraps(B-wraps(A-wraps(base))): the composed
transport is extensionally equal to `C(B(A(base)))` as a function of the
request — the last wrapper applied is outermost and runs first at call
time. -/
theorem wrapTransport_last_outermost (A B C : MWrapper) (base : MTransport)
    (req : MReq) :
    WrapTransport base [A, B, C] req = C (B (A base)) req := by
  rw [wrapTransport_eq_foldl]
  rfl

/-! ### `builder.BuildTransport` (`httpx.go:505-535`) -/

/-- The transport-relevant configuration the builder carries into
`BuildTransport`. -/
structure TransportConfig where
  expectedStatusCodes : List Nat
  contentType : String
  loggingReq : Bool
  loggingResp : Bool
  tracing : Bool
  timeout : Int
deriving DecidableEq

/-- The accepted status set: defaults to `{200}` when unset
(`httpx.go:517-521`). -/
def effExpected (b : TransportConfig) : List Nat :=
  if b.expectedStatusCodes ≠ [] then b.expectedStatusCodes else [200]

/-- The wrapper sequence `BuildTransport` assembles (`httpx.go:522-532`):
status-code validator, then JSON content-type stamping when the content
type is empty or JSON, then logging, then tracing when enabled, then
timeout. -/
def buildTws (b : TransportConfig) : List MWrapper :=
  [StatusCodesTransport (effExpected b)] ++
    (if b.contentType = "" ∨ b.contentType = ContentTypeJson then
      [JsonTransport] else []) ++
    [LoggingTransport b.loggingReq b.loggingResp] ++
    (if b.tracing then [TracingTransport] else []) ++
    [TimeoutTransport b.timeout]

/-- Embeds `builder.BuildTransport` after base-transport selection: the selected
base wrapped by the assembled sequence (`httpx.go:533`). -/
def buildTransportModel (b : TransportConfig) (base : MTransport) :
    MTransport :=
  WrapTransport base (buildTws b)

/-- The default builder configuration (`New`, `httpx.go:69-82`). -/
def defaultTransportConfig : TransportConfig :=
  ⟨[200], ContentTypeJson, true, true, true, defaultTransprtTimeout⟩

/-- A base transport standing for the wire: replies 200 with body
`"wire"`. -/
def wireBase : MTransport := fun _ => (.ok ⟨200, "wire"⟩, [])

/-- C3 counterexample: in the default stack, status-code validation is
adjacent to the base transport, so on the response path it observes (and
checks) the wire response BEFORE the logging instrumentation reads the
response body: in the event trace of a concrete run the `statusCheck`
event precedes the `respBodyRead` event.  This refutes the claim that
status validation observes the response after all other instrumentation
has had a chance to read it. -/
theorem buildTransport_status_first_counterexample :
    (buildTransportModel defaultTransportConfig wireBase emptyReq).2 =
      [.enter "timeout", .enter "tracing", .enter "logging", .enter "json",
        .statusCheck 200, .respBodyRead "wire"] ∧
    (buildTransportModel defaultTransportConfig wireBase emptyReq).2.findIdx
        (fun e => e == Ev.statusCheck 200) <
      (buildTransportModel defaultTransportConfig wireBase emptyReq).2.findIdx
        (fun e => e == Ev.respBodyRead "wire") := by
  constructor
  · rfl
  · decide

/-- C3 (amended): in the stack assembled by `BuildTransport`, the timeout
wrapper is outermost at call time — it runs first, and the whole remaining
chain (optional tracing, logging, optional JSON stamping, status
validation, base transport) executes inside it, under its derived
deadline — while the status-code validator is innermost, adjacent to the
base transport, so it observes the actual wire response before any other
instrumentation reads it. -/
theorem buildTransport_timeout_outermost (b : TransportConfig)
    (base : MTransport) (req : MReq) :
    buildTransportModel b base req =
      TimeoutTransport b.timeout
        ((if b.tracing then TracingTransport else id)
          (LoggingTransport b.loggingReq b.loggingResp
            ((if b.contentType = "" ∨ b.contentType = ContentTypeJson then
                JsonTransport else id)
              (StatusCodesTransport (effExpected b) base)))) req ∧
    (buildTransportModel b base req).2.head? = some (.enter "timeout") := by
  have hfold :
      buildTransportModel b base req =
        TimeoutTransport b.timeout
          ((if b.tracing then TracingTransport else id)
            (LoggingTransport b.loggingReq b.loggingResp
              ((if b.contentType = "" ∨ b.contentType = ContentTypeJson then
                  JsonTransport else id)
                (StatusCodesTransport (effExpected b) base)))) req := by
    rw [buildTransportModel, wrapTransport_eq_foldl, buildTws]
    by_cases hct : b.contentType = "" ∨ b.contentType = ContentTypeJson <;>
      by_cases htr : b.tracing = true
    · simp [hct, htr]
    · simp [hct, htr]
    · simp [hct, htr]
    · simp [hct, htr]
  refine ⟨hfold, ?_⟩
  rw [hfold, TimeoutTransport]
  rfl

/-! ## Builder immutability (`httpx.go`, chaining methods and `clone`)

Go's `builder` struct is copied by value by `clone`, but its two
map-valued fields (`urlValues`, `header`) are references into the heap.
The embedding makes that explicit: a `Store` is the heap restricted to
multimaps (addresses are list indices, allocation appends), a `BuilderS`
holds the addresses of its two maps, and each chaining method is a state
transformer `Store x BuilderS -> Store x BuilderS`.  `clone`
(`httpx.go:590-624`) allocates two fresh maps and copies every entry into
them with `Add`; the chaining methods then mutate only the clone. -/

/-- The heap of multimaps. -/
abbrev Store := List MultiMap

/-- Read the multimap at address `i` (arbitrary default for dangling
addresses, which the theorems exclude by hypothesis). -/
def readMap (s : Store) (i : Nat) : MultiMap :=
  s.getD i []

/-- Overwrite the multimap at address `i`. -/
def writeMap (s : Store) (i : Nat) (m : MultiMap) : Store :=
  s.set i m

/-- The builder value (`httpx.go:49-67`), with its two map fields as
store addresses and the deferred error as an `Option`. -/
structure BuilderS where
  path : String
  method : String
  baseURL : String
  urlValuesRef : Nat
  headerRef : Nat
  expectedStatusCodes : List Nat
  loggingReq : Bool
  loggingResp : Bool
  timeout : Int
  tracing : Bool
  contentType : String
  insecure : Bool
  err : Option String
deriving DecidableEq

/-- Embeds `builder.clone` (`httpx.go:590-624`): allocate two fresh maps, copy
the receiver's query values and headers into them entry by entry with
`Add`, and return a builder value that points at the fresh maps and
copies every scalar field. -/
def cloneB (s : Store) (b : BuilderS) : Store × BuilderS :=
  let uvCopy := addPairs [] (mmPairs (readMap s b.urlValuesRef))
  let hdCopy := addPairs [] (mmPairs (readMap s b.headerRef))
  (s ++ [uvCopy, hdCopy],
    { b with urlValuesRef := s.length, headerRef := s.length + 1 })

/-- The chaining operations of claim C4, with their arguments. -/
inductive BOp where
  | get (path : String)
  | post (path : String)
  | method (m p : String)
  | baseURL (u : String)
  | withQueryString (k v : String)
  | withHeader (k v : String)
  | withHeaders (hs : MultiMap)
  | expectedStatusCodes (cs : List Nat)
  | timeout (t : Int)
deriving DecidableEq

/-- One chaining call (`httpx.go:184-439`): clone the receiver; if the
clone carries a deferred error return it unchanged; otherwise record the
new value on the clone (for the map-valued operations, by mutating the
clone's freshly allocated map through its address). -/
def applyOp (op : BOp) (s : Store) (b : BuilderS) : Store × BuilderS :=
  let sb := cloneB s b
  let s1 := sb.1
  let nb := sb.2
  if nb.err.isSome then (s1, nb)
  else
    match op with
    | .get path => (s1, { nb with method := "GET", path := path })
    | .post path => (s1, { nb with method := "POST", path := path })
    | .method m p => (s1, { nb with method := m, path := p })
    | .baseURL u => (s1, { nb with baseURL := u })
    | .withQueryString k v =>
      (writeMap s1 nb.urlValuesRef (mmAdd k v (readMap s1 nb.urlValuesRef)), nb)
    | .withHeader k v =>
      (writeMap s1 nb.headerRef (mmAdd k v (readMap s1 nb.headerRef)), nb)
    | .withHeaders hs =>
      (writeMap s1 nb.headerRef (addPairs (readMap s1 nb.headerRef) (mmPairs hs)),
        nb)
    | .expectedStatusCodes cs => (s1, { nb with expectedStatusCodes := cs })
    | .timeout t => (s1, { nb with timeout := t })

theorem readMap_append (s : Store) (ms : List MultiMap) (i : Nat)
    (h : i < s.length) : readMap (s ++ ms) i = readMap s i := by
  unfold readMap
  simp [List.getD, List.getElem?_append_left h]

theorem readMap_writeMap_ne (s : Store) (i j : Nat) (m : MultiMap)
    (h : i ≠ j) : readMap (writeMap s j m) i = readMap s i := by
  unfold readMap writeMap
  simp [List.getD, List.getElem?_set_ne (fun hji => h hji.symm)]

theorem applyOp_snd_refs (op : BOp) (s : Store) (b : BuilderS) :
    (applyOp op s b).2.urlValuesRef = s.length ∧
    (applyOp op s b).2.headerRef = s.length + 1 := by
  cases op <;> by_cases herr : b.err.isSome <;>
    simp [applyOp, cloneB, herr]

theorem applyOp_fst_reads (op : BOp) (s : Store) (b : BuilderS) (i : Nat)
    (hi : i < s.length) :
    readMap (applyOp op s b).1 i = readMap s i := by
  have hu : (cloneB s b).2.urlValuesRef = s.length := rfl
  have hh : (cloneB s b).2.headerRef = s.length + 1 := rfl
  cases op with
  | withQueryString k v =>
    simp only [applyOp]
    split
    · exact readMap_append s _ i hi
    · rw [readMap_writeMap_ne _ _ _ _ (by omega)]
      exact readMap_append s _ i hi
  | withHeader k v =>
    simp only [applyOp]
    split
    · exact readMap_append s _ i hi
    · rw [readMap_writeMap_ne _ _ _ _ (by omega)]
      exact readMap_append s _ i hi
  | withHeaders hs =>
    simp only [applyOp]
    split
    · exact readMap_append s _ i hi
    · rw [readMap_writeMap_ne _ _ _ _ (by omega)]
      exact readMap_append s _ i hi
  | get path =>
    simp only [applyOp]
    split
    · exact readMap_append s _ i hi
    · exact readMap_append s _ i hi
  | post path =>
    simp only [applyOp]
    split
    · exact readMap_append s _ i hi
    · exact readMap_append s _ i hi
  | method m p =>
    simp only [applyOp]
    split
    · exact readMap_append s _ i hi
    · exact readMap_append s _ i hi
  | baseURL u =>
    simp only [applyOp]
    split
    · exact readMap_append s _ i hi
    · exact readMap_append s _ i hi
  | expectedStatusCodes cs =>
    simp only [applyOp]
    split
    · exact readMap_append s _ i hi
    · exact readMap_append s _ i hi
  | timeout t =>
    simp only [applyOp]
    split
    · exact readMap_append s _ i hi
    · exact readMap_append s _ i hi

/-- C4: every chaining operation leaves the receiver untouched — the
query map and header map that the original builder `b` points at hold the
same contents after the call (and `b`, a pure value, keeps its method,
path and every scalar field, since `clone` copies the struct) — and the
returned builder points at two freshly allocated maps, distinct from both
of the receiver's map addresses, so the two builders share no mutable
state. -/
theorem builder_ops_immutable (op : BOp) (s : Store) (b : BuilderS)
    (hu : b.urlValuesRef < s.length) (hh : b.headerRef < s.length) :
    readMap (applyOp op s b).1 b.urlValuesRef = readMap s b.urlValuesRef ∧
    readMap (applyOp op s b).1 b.headerRef = readMap s b.headerRef ∧
    (applyOp op s b).2.urlValuesRef ≠ b.urlValuesRef ∧
    (applyOp op s b).2.urlValuesRef ≠ b.headerRef ∧
    (applyOp op s b).2.headerRef ≠ b.urlValuesRef ∧
    (applyOp op s b).2.headerRef ≠ b.headerRef := by
  obtain ⟨h1, h2⟩ := applyOp_snd_refs op s b
  exact ⟨applyOp_fst_reads op s b _ hu, applyOp_fst_reads op s b _ hh,
    by omega, by omega, by omega, by omega⟩

/-- A concrete two-map store and a builder pointing at its entries. -/
def store0 : Store := [[("a", ["1"])], [("H", ["x"])]]

/-- A concrete builder over `store0`. -/
def builder0 : BuilderS :=
  ⟨"/p", "GET", "http://h", 0, 1, [200], true, true, 10, true,
    "application/json", false, none⟩

/-- C4 witness: a concrete `WithQueryString` call leaves the receiver's
maps unchanged and yields fresh, unshared map addresses. -/
theorem builder_ops_immutable_witness :
    readMap (applyOp (.withQueryString "q" "v") store0 builder0).1
        builder0.urlValuesRef = readMap store0 builder0.urlValuesRef ∧
    readMap (applyOp (.withQueryString "q" "v") store0 builder0).1
        builder0.headerRef = readMap store0 builder0.headerRef ∧
    (applyOp (.withQueryString "q" "v") store0 builder0).2.urlValuesRef ≠
      builder0.urlValuesRef ∧
    (applyOp (.withQueryString "q" "v") store0 builder0).2.urlValuesRef ≠
      builder0.headerRef ∧
    (applyOp (.withQueryString "q" "v") store0 builder0).2.headerRef ≠
      builder0.urlValuesRef ∧
    (applyOp (.withQueryString "q" "v") store0 builder0).2.headerRef ≠
      builder0.headerRef :=
  builder_ops_immutable (.withQueryString "q" "v") store0 builder0
    (by decide) (by decide)

/-! ## `builder.BuildHTTPReq`: query merging and header materialisation
(`httpx.go:441-503`) -/

/-- The query-merging block of `BuildHTTPReq` (`httpx.go:446-462`): a
fresh `url.Values` receives, via `Add`, every builder-accumulated entry
and then every entry already present in the path's query string. -/
def buildReqQuery (builderValues pathQuery : MultiMap) : MultiMap :=
  addPairs (addPairs [] (mmPairs builderValues)) (mmPairs pathQuery)

/-- C5: for every key, the built request's query values are exactly the
builder-accumulated values for that key followed by the path-query values
for that key — the union of both sets with no entry dropped, builder
entries preceding path entries for every duplicate key. -/
theorem query_merge_union_order (builderValues pathQuery : MultiMap)
    (k : String) :
    mmValues k (buildReqQuery builderValues pathQuery) =
      collectPairs k (mmPairs builderValues) ++
        collectPairs k (mmPairs pathQuery) := by
  unfold buildReqQuery
  rw [mmValues_addPairs, mmValues_addPairs]
  simp [mmValues]

/-- The last `Set` wins: values a `Set`-fold leaves for key `k`. -/
theorem mmValues_setPairs (k : String) (pairs : List (String × String))
    (m : MultiMap) :
    mmValues k (setPairs m pairs) =
      match (collectPairs k pairs).getLast? with
      | some v => [v]
      | none => mmValues k m := by
  induction pairs using List.reverseRecOn generalizing m with
  | nil => simp [setPairs, collectPairs]
  | append_singleton init p ih =>
    obtain ⟨k', v⟩ := p
    have hsplit : setPairs m (init ++ [(k', v)]) =
        mmSet k' v (setPairs m init) := by
      simp [setPairs]
    have hcol : collectPairs k (init ++ [(k', v)]) =
        collectPairs k init ++ collectPairs k [(k', v)] := by
      simp [collectPairs]
    by_cases h : k' = k
    · subst h
      rw [hsplit, mmValues_mmSet, if_pos rfl, hcol]
      simp [collectPairs, List.getLast?_concat]
    · have hbeq : ((k', v).1 == k) = false := by
        simp [h]
      rw [hsplit, mmValues_mmSet, if_neg h, hcol, ih]
      simp [collectPairs, hbeq]

/-- The header-materialisation block of `BuildHTTPReq`
(`httpx.go:488-501`): a fresh header receives `Set(key, value)` for every
accumulated builder pair (so later values for a key silently replace
earlier ones), then `Content-Type` is defaulted — to the builder's
content type, or `application/json` when that is empty — only if
`Get(Content-Type)` returns the empty string. -/
def buildReqHeaders (builderHeader : MultiMap) (contentTypeCfg : String) :
    MultiMap :=
  let headers := setPairs [] (mmPairs builderHeader)
  let ct := if contentTypeCfg = "" then ContentTypeJson else contentTypeCfg
  if mmGet ContentTypeKey headers = "" then mmSet ContentTypeKey ct headers
  else headers

/-- C9 counterexample: a builder holding the two values `["a", ""]` for
`Content-Type` yields a built request whose single `Content-Type` value
is the defaulted content type, not the last builder value `""` — because
`Get` returns the just-set empty string, which triggers the default
stamping.  This refutes the claim that the built header always holds the
last builder value for the key. -/
theorem header_last_value_counterexample :
    mmValues ContentTypeKey
        (buildReqHeaders [(ContentTypeKey, ["a", ""])] ContentTypeJson) =
      [ContentTypeJson] ∧
    mmValues ContentTypeKey
        (buildReqHeaders [(ContentTypeKey, ["a", ""])] ContentTypeJson) ≠
      [""] := by
  decide

/-- C9 (amended): for every key with at least one accumulated builder
value, the built request holds exactly one value for it — the last value
in the builder's list, all earlier values being silently dropped — except
in the single corner where the key is `Content-Type` and that last value
is the empty string, in which case the one value is the configured
content type (default `application/json`). -/
theorem header_set_last_value (builderHeader : MultiMap) (ct k vlast : String)
    (hlast : (collectPairs k (mmPairs builderHeader)).getLast? = some vlast) :
    (k ≠ ContentTypeKey ∨ vlast ≠ "" →
      mmValues k (buildReqHeaders builderHeader ct) = [vlast]) ∧
    (k = ContentTypeKey → vlast = "" →
      mmValues k (buildReqHeaders builderHeader ct) =
        [if ct = "" then ContentTypeJson else ct]) := by
  have hset : mmValues k (setPairs [] (mmPairs builderHeader)) = [vlast] := by
    rw [mmValues_setPairs, hlast]
  constructor
  · intro hside
    by_cases hk : k = ContentTypeKey
    · subst hk
      have hv : vlast ≠ "" := by
        rcases hside with h | h
        · exact absurd rfl h
        · exact h
      have hget : mmGet ContentTypeKey (setPairs [] (mmPairs builderHeader)) =
          vlast := by
        rw [mmGet, hset]
        rfl
      rw [buildReqHeaders]
      simp only [hget, if_neg hv]
      exact hset
    · rw [buildReqHeaders]
      split
      · rw [mmValues_mmSet, if_neg (fun h => hk h.symm)]
        exact hset
      · exact hset
  · intro hk hv
    subst hk
    subst hv
    have hget : mmGet ContentTypeKey (setPairs [] (mmPairs builderHeader)) =
        "" := by
      rw [mmGet, hset]
      rfl
    rw [buildReqHeaders]
    simp [hget, mmValues_mmSet]

/-- C9 witness: a key accumulated with values `["1", "2"]` ends up with
the single value `"2"` in the built request. -/
theorem header_set_last_value_witness :
    mmValues "X-K" (buildReqHeaders [("X-K", ["1", "2"])] ContentTypeJson) =
      ["2"] :=
  (header_set_last_value [("X-K", ["1", "2"])] ContentTypeJson "X-K" "2"
      (by decide)).1 (Or.inl (by decide))

/-! ## Status-envelope codec (`part_001`, `StatusJsonCodec.Decode`)

JSON (de)serialisation is the opaque collaborator the spec declares; the
wire body is embedded as the envelope fields it carries (each `Option`,
absent fields leaving the Go zero values / the preset target untouched,
matching `encoding/json` semantics for `&statusResp{Data: obj}`). -/

/-- The envelope struct `statusResp` (`part_001:57-61`). -/
structure statusResp (Data : Type) where
  code : Int
  msg : String
  data : Data
deriving DecidableEq

/-- The decoded JSON body: which envelope fields the wire carried. -/
structure wireEnvelope (Data : Type) where
  code : Option Int
  msg : Option String
  data : Option Data
deriving DecidableEq

/-- Embeds `json.Decode` into a preset `statusResp`: fields present on the wire
overwrite the preset values, absent fields leave them. -/
def jsonPopulate {Data : Type} (preset : statusResp Data)
    (w : wireEnvelope Data) : statusResp Data :=
  ⟨w.code.getD preset.code, w.msg.getD preset.msg, w.data.getD preset.data⟩

/-- Embeds `StatusJsonCodec.Decode` (`part_001:63-74`): decode the body into
`statusResp{Code: 0, Msg: "", Data: target}` and fail iff the resulting
code is non-zero, carrying the code and the message. -/
def statusJsonDecode {Data : Type} (target : Data) (w : wireEnvelope Data) :
    Except String Data :=
  let resp := jsonPopulate ⟨0, "", target⟩ w
  if resp.code ≠ 0 then
    .error ("unexpected code:" ++ toString resp.code ++ ",msg:" ++ resp.msg)
  else
    .ok resp.data

/-- C8: a body whose envelope carries code 0 decodes the `data` field
into the caller's target and returns no error; a body with any non-zero
code yields a decode error carrying that code and the envelope's message;
code 0 is the only success value. -/
theorem statusCodec_decode (Data : Type) (target : Data)
    (w : wireEnvelope Data) :
    (∀ d, w.code = some 0 → w.data = some d →
      statusJsonDecode target w = .ok d) ∧
    (∀ c, w.code = some c → c ≠ 0 →
      statusJsonDecode target w =
        .error ("unexpected code:" ++ toString c ++ ",msg:" ++
          w.msg.getD "")) := by
  constructor
  · intro d hc hd
    simp [statusJsonDecode, jsonPopulate, hc, hd]
  · intro c hc hcne
    simp [statusJsonDecode, jsonPopulate, hc, hcne]

/-- C8 witness: the spec's concrete cases — `code:0` decodes the payload
into the target; `code:5, msg:"bad"` yields the decode error reporting
code 5 and message `"bad"`. -/
theorem statusCodec_decode_witness :
    statusJsonDecode (0 : Nat) ⟨some 0, none, some 7⟩ = .ok 7 ∧
    statusJsonDecode (0 : Nat) ⟨some 5, some "bad", some 7⟩ =
      .error "unexpected code:5,msg:bad" :=
  ⟨(statusCodec_decode Nat 0 ⟨some 0, none, some 7⟩).1 7 rfl rfl,
    ((statusCodec_decode Nat 0 ⟨some 5, some "bad", some 7⟩).2 5 rfl
        (by decide)).trans (by decide)⟩

end Httpx
